import Mathlib

/-!
Shallow embedding of the `destiny_draw` card-combat engine
(`src/types.rs`, `src/state.rs`, `src/main.rs`).

Conventions of the embedding:
* Rust `Vec<T>` is a Lean `List T` in the same order; `Vec::pop` removes the
  LAST element (`popLast` below), `Vec::push` appends at the end.
* `u8`/`usize` become `Nat`; the one place where `usize` subtraction can wrap
  (release-mode `5 - hand.len()` in `resolve_hand`) is modelled with integer
  arithmetic modulo 2^64.
* `Deck::shuffle` uses a non-deterministic RNG; every state-transforming
  function is parameterised by a `shuffle` function `List CardType → List
  CardType`, and theorems hypothesise only what the spec guarantees about it
  (it permutes / preserves length).
* Rust methods mutating `&mut self` and returning `Result<(), String>` become
  functions `PlayerState → PlayerState × Option String`: the returned state is
  the receiver as mutated so far, and `some msg` is the `Err` case.
* Out-of-range `Vec` indexing panics in Rust; the combo-check helpers are only
  ever called with in-range indices, and the embedding returns `none` there.
-/

/-- Element enumeration from `src/types.rs` (`ElementType`). `None` is the
wildcard/neutral element. -/
inductive ElementType where
  | Air
  | Earth
  | Fire
  | Ice
  | None
deriving DecidableEq

/-- Suit from `src/types.rs`: a display glyph paired with an element. -/
structure Suit where
  symbol : String
  element : ElementType
deriving DecidableEq

/-- Card type. `Number (some n) suit` is a numbered card; `Number none suit`
is the joker as constructed by `Deck::new` in `src/types.rs`. The `Joker`
variant (fields `current_value`, `current_suit`, `symbol`) is matched by
`src/state.rs` and `src/main.rs` but its declaration is in a revision of
`types.rs` missing from `src/`; its fields are taken from those match sites. -/
inductive CardType where
  | Number : Option Nat → Suit → CardType
  | Joker : Option Nat → Option Suit → String → CardType
deriving DecidableEq

/-- Deck from `src/types.rs`: an ordered sequence of cards. -/
structure Deck where
  cards : List CardType
deriving DecidableEq

/-- Combo result. `TripleThreat` and `MatchedEdge` are declared in
`src/types.rs`; `Jackpot` and `DoubleTrouble` are constructed in
`src/state.rs` and matched in `src/main.rs` with the fields shown there
(their declaration is in a revision of `types.rs` missing from `src/`). -/
inductive HandType where
  | TripleThreat : (value : Nat) → (suits : List ElementType) → (card_indices : List Nat) → HandType
  | MatchedEdge : (value : Nat) → (suits : List ElementType) → (card_indices : List Nat) → HandType
  | Jackpot : (value : Nat) → (suits : List ElementType) → (card_indices : List Nat) → HandType
  | DoubleTrouble : (first_pair_value : Nat) → (second_pair_value : Nat) →
      (suits : List ElementType) → (card_indices : List Nat) → HandType
deriving DecidableEq

/-- The `card_indices` field common to every `HandType` variant
(matched this way in `resolve_hand`, `src/main.rs`). -/
def HandType.card_indices : HandType → List Nat
  | .TripleThreat _ _ is => is
  | .MatchedEdge _ _ is => is
  | .Jackpot _ _ is => is
  | .DoubleTrouble _ _ _ is => is

/-- Player state from `src/state.rs`: deck, hand and discard pile. -/
structure PlayerState where
  deck : Deck
  hand : List CardType
  discard : List CardType
deriving DecidableEq

/-- The four elemental suits built by `Deck::new` in `src/types.rs`,
in source order. -/
def standardSuits : List Suit :=
  [⟨":diamonds: = :cloud_tornado:", ElementType.Air⟩,
   ⟨":hearts: = :fire:", ElementType.Fire⟩,
   ⟨":spades: = :snowflake:", ElementType.Ice⟩,
   ⟨":clubs: = :rock:", ElementType.Earth⟩]

/-- The joker card pushed twice by `Deck::new`. -/
def jokerCard : CardType :=
  CardType.Number none ⟨":black_joker:", ElementType.None⟩

/-- `Deck::new` from `src/types.rs`: for each suit, ranks 1..=7, then two
jokers — 30 cards. -/
def Deck.new : Deck :=
  ⟨(standardSuits.flatMap fun suit =>
      (List.range' 1 7).map fun n => CardType.Number (some n) suit)
    ++ [jokerCard, jokerCard]⟩

/-- `PlayerState::new` from `src/state.rs`: a freshly built, shuffled deck,
empty hand and discard. The RNG-driven shuffle is the parameter `sh`. -/
def PlayerState.new (sh : List CardType → List CardType) : PlayerState :=
  ⟨⟨sh Deck.new.cards⟩, [], []⟩

/-- Rust `Vec::pop`: remove and return the last element. -/
def popLast {α : Type} : List α → Option (α × List α)
  | [] => none
  | [a] => some (a, [])
  | a :: b :: rest =>
    match popLast (b :: rest) with
    | some (c, l) => some (c, a :: l)
    | none => none

/-- The error message of `draw_to_hand` in `src/state.rs`
(the spec's `ExhaustedSupply`). -/
def exhaustedMsg : String := "No cards left in deck or discard"

/-- `PlayerState::draw_to_hand` from `src/state.rs`: move `num_cards` cards
from the top (end) of the deck to the hand, recycling the discard pile
through a reshuffle when the deck runs out, and failing — keeping all cards
drawn so far — when both are empty. -/
def drawToHand (sh : List CardType → List CardType) :
    Nat → PlayerState → PlayerState × Option String
  | 0, s => (s, none)
  | n + 1, s =>
    match popLast s.deck.cards with
    | some (card, rest) =>
      drawToHand sh n ⟨⟨rest⟩, s.hand ++ [card], s.discard⟩
    | none =>
      if s.discard.isEmpty then
        (s, some exhaustedMsg)
      else
        let newCards := sh (s.deck.cards ++ s.discard)
        match popLast newCards with
        | some (card, rest) =>
          drawToHand sh n ⟨⟨rest⟩, s.hand ++ [card], []⟩
        | none => (⟨⟨newCards⟩, s.hand, []⟩, some exhaustedMsg)

/-- The error message of `discard_from_hand` in `src/state.rs`
(the spec's `IndexOutOfBounds`). -/
def oobMsg : String := "Card index out of bounds"

/-- `PlayerState::discard_from_hand` from `src/state.rs`: bounds-check, then
remove the card at `card_index` from the hand and append it to the discard
pile. -/
def discardFromHand (card_index : Nat) (s : PlayerState) :
    PlayerState × Option String :=
  match s.hand[card_index]? with
  | none => (s, some oobMsg)
  | some card =>
    (⟨s.deck, s.hand.eraseIdx card_index, s.discard ++ [card]⟩, none)

/-- Accumulator of the card-scanning loop shared by `check_pair_value`,
`check_pair`, `check_triple` and `check_jackpot` in `src/state.rs`
(`value`, `joker_count`, `non_joker_suits`). -/
structure ScanState where
  value : Option Nat
  jokerCount : Nat
  nonJokerSuits : List ElementType
deriving DecidableEq

/-- One iteration of the scanning loop of `check_pair_value` / `check_pair` /
`check_triple`: numbered cards must agree on one rank (else early return
`None`) and push their suit's element when it is not `ElementType.None`;
rankless cards and `Joker`s bump the joker count. -/
def scanStep (st : ScanState) (c : CardType) : Option ScanState :=
  match c with
  | .Number (some num) suit =>
    if st.value = none ∨ st.value = some num then
      some ⟨some num, st.jokerCount,
        if suit.element ≠ ElementType.None then st.nonJokerSuits ++ [suit.element]
        else st.nonJokerSuits⟩
    else none
  | .Number none _ => some ⟨st.value, st.jokerCount + 1, st.nonJokerSuits⟩
  | .Joker _ _ _ => some ⟨st.value, st.jokerCount + 1, st.nonJokerSuits⟩

/-- The scanning loop over a card subset, starting from the empty
accumulator. -/
def scanCards (cards : List CardType) : Option ScanState :=
  cards.foldlM scanStep ⟨none, 0, []⟩

/-- The full element list substituted when a wildcard is present
(`src/state.rs`, construction order `Air, Earth, Fire, Ice`). -/
def allElements : List ElementType :=
  [ElementType.Air, ElementType.Earth, ElementType.Fire, ElementType.Ice]

/-- `PlayerState::check_pair_value` from `src/state.rs`: scan the two cards;
qualify iff `joker_count + non_joker_suits.len() == 2`; value defaults to 7
for an all-joker pair; the element list is all four elements when a joker is
present. -/
def checkPairValue (s : PlayerState) (i j : Nat) :
    Option (Nat × List ElementType) :=
  match s.hand[i]?, s.hand[j]? with
  | some a, some b =>
    (match scanCards [a, b] with
     | some st =>
       if st.jokerCount + st.nonJokerSuits.length = 2 then
         some (st.value.getD 7,
           if 0 < st.jokerCount then allElements else st.nonJokerSuits)
       else none
     | none => none)
  | _, _ => none

/-- `PlayerState::check_pair` from `src/state.rs`: same scan as
`check_pair_value`, packaged as a `MatchedEdge`. -/
def checkPair (s : PlayerState) (i j : Nat) : Option HandType :=
  match s.hand[i]?, s.hand[j]? with
  | some a, some b =>
    (match scanCards [a, b] with
     | some st =>
       if st.jokerCount + st.nonJokerSuits.length = 2 then
         some (HandType.MatchedEdge (st.value.getD 7)
           (if 0 < st.jokerCount then allElements else st.nonJokerSuits) [i, j])
       else none
     | none => none)
  | _, _ => none

/-- `PlayerState::check_triple` from `src/state.rs`: same scan over three
cards; qualify iff `joker_count + non_joker_suits.len() == 3`. -/
def checkTriple (s : PlayerState) (i j k : Nat) : Option HandType :=
  match s.hand[i]?, s.hand[j]?, s.hand[k]? with
  | some a, some b, some c =>
    (match scanCards [a, b, c] with
     | some st =>
       if st.jokerCount + st.nonJokerSuits.length = 3 then
         some (HandType.TripleThreat (st.value.getD 7)
           (if 0 < st.jokerCount then allElements else st.nonJokerSuits) [i, j, k])
       else none
     | none => none)
  | _, _, _ => none

/-- One iteration of `check_jackpot`'s loop in `src/state.rs`: any rankless
card or `Joker` rejects the whole subset (early return `None`). -/
def scanJackpotStep (st : ScanState) (c : CardType) : Option ScanState :=
  match c with
  | .Number (some num) suit =>
    if st.value = none ∨ st.value = some num then
      some ⟨some num, st.jokerCount,
        if suit.element ≠ ElementType.None then st.nonJokerSuits ++ [suit.element]
        else st.nonJokerSuits⟩
    else none
  | .Number none _ => none
  | .Joker _ _ _ => none

/-- `PlayerState::check_jackpot` from `src/state.rs`: four numbered cards of
one rank, no wildcards; qualify iff `non_joker_suits.len() == 4`. -/
def checkJackpot (s : PlayerState) (i j k l : Nat) : Option HandType :=
  match s.hand[i]?, s.hand[j]?, s.hand[k]?, s.hand[l]? with
  | some a, some b, some c, some d =>
    (match [a, b, c, d].foldlM scanJackpotStep ⟨none, 0, []⟩ with
     | some st =>
       if st.nonJokerSuits.length = 4 then
         some (HandType.Jackpot (st.value.getD 7) st.nonJokerSuits [i, j, k, l])
       else none
     | none => none)
  | _, _, _, _ => none

/-- `PlayerState::check_double_trouble` from `src/state.rs`: evaluate both
pairs with `check_pair_value`, then merge their element lists keeping the
first occurrence of each element (the source keeps parallel `all_suits` /
`added_elements` accumulators). -/
def checkDoubleTrouble (s : PlayerState) (i j k l : Nat) : Option HandType :=
  match checkPairValue s i j with
  | none => none
  | some firstPair =>
    (match checkPairValue s k l with
     | none => none
     | some secondPair =>
       let step := fun (acc : List ElementType × List ElementType) e =>
         if e ∈ acc.2 then acc else (acc.1 ++ [e], acc.2 ++ [e])
       let merged := (firstPair.2 ++ secondPair.2).foldl step ([], [])
       some (HandType.DoubleTrouble firstPair.1 secondPair.1 merged.1 [i, j, k, l]))

/-- The jackpot loop nest of `find_possible_hands`
(`for i`, `for j in i+1..`, `for k in j+1..`, `for l in k+1..`). -/
def jackpotBlock (s : PlayerState) : List HandType :=
  let n := s.hand.length
  (List.range n).flatMap fun i =>
  (List.range n).flatMap fun j =>
  (List.range n).flatMap fun k =>
  (List.range n).flatMap fun l =>
  if i < j ∧ j < k ∧ k < l then (checkJackpot s i j k l).toList else []

/-- The double-trouble loop nest of `find_possible_hands`: first pair at
`i < j`, second pair at `k < l` over the full range, skipping `i` and `j`,
guarded by `check_pair_value` on each pair and by differing pair values. -/
def dtBlock (s : PlayerState) : List HandType :=
  let n := s.hand.length
  (List.range n).flatMap fun i =>
  (List.range n).flatMap fun j =>
  if i < j then
    match checkPairValue s i j with
    | some value1 =>
      (List.range n).flatMap fun k =>
      if k = i ∨ k = j then [] else
      (List.range n).flatMap fun l =>
      if l ≤ k ∨ l = i ∨ l = j then [] else
      (match checkPairValue s k l with
       | some value2 =>
         if value1.1 ≠ value2.1 then (checkDoubleTrouble s i j k l).toList else []
       | none => [])
    | none => []
  else []

/-- The triple loop nest of `find_possible_hands`. -/
def tripleBlock (s : PlayerState) : List HandType :=
  let n := s.hand.length
  (List.range n).flatMap fun i =>
  (List.range n).flatMap fun j =>
  (List.range n).flatMap fun k =>
  if i < j ∧ j < k then (checkTriple s i j k).toList else []

/-- The pair loop nest of `find_possible_hands`. -/
def pairBlock (s : PlayerState) : List HandType :=
  let n := s.hand.length
  (List.range n).flatMap fun i =>
  (List.range n).flatMap fun j =>
  if i < j then (checkPair s i j).toList else []

/-- `PlayerState::find_possible_hands` from `src/state.rs`: jackpots, then
double troubles, then triples, then pairs, each block in loop order; the
first two blocks are guarded by `hand_len >= 4` as in the source. -/
def findPossibleHands (s : PlayerState) : List HandType :=
  (if 4 ≤ s.hand.length then jackpotBlock s else []) ++
  (if 4 ≤ s.hand.length then dtBlock s else []) ++
  tripleBlock s ++ pairBlock s

/-- The discard loop of `resolve_hand` in `src/main.rs`: discard the given
indices one after the other, propagating the first error (`?`) with the
state as mutated so far. -/
def discardIndices (idxs : List Nat) (s : PlayerState) :
    PlayerState × Option String :=
  match idxs with
  | [] => (s, none)
  | i :: rest =>
    match discardFromHand i s with
    | (s1, none) => discardIndices rest s1
    | (s1, some e) => (s1, some e)

/-- Width of Rust's `usize` on the target platform. -/
def usizeMod : Nat := 2 ^ 64

/-- The error message of `resolve_hand` for a bad selection
(the spec's `InvalidSelection`). -/
def invalidSelectionMsg : String := "Invalid hand number"

/-- `resolve_hand` from `src/main.rs` (engine part): validate the 1-based
selection, discard the chosen combo's `card_indices` iterated in reverse
(`.iter().rev()`), then compute `5 - hand.len()` in `usize` arithmetic
(wrapping, release semantics) and draw that many cards when positive. -/
def resolveHand (sh : List CardType → List CardType) (hand_number : Nat)
    (s : PlayerState) : PlayerState × Option String :=
  let possible := findPossibleHands s
  if hand_number = 0 ∨ possible.length < hand_number then
    (s, some invalidSelectionMsg)
  else
    match possible[hand_number - 1]? with
    | none => (s, some invalidSelectionMsg)
    | some combo =>
      match discardIndices combo.card_indices.reverse s with
      | (s1, some e) => (s1, some e)
      | (s1, none) =>
        let cardsNeeded := (((5 : Int) - s1.hand.length) % (usizeMod : Int)).toNat
        if 0 < cardsNeeded then drawToHand sh cardsNeeded s1 else (s1, none)

/-- The `Op` type packages the three player-facing operations whose
sequences the conservation claim quantifies over. -/
inductive Op where
  | draw : Nat → Op
  | discard : Nat → Op
  | resolve : Nat → Op

/-- Apply one operation, keeping the state as mutated so far whether the
operation succeeds or fails (Rust `&mut self` semantics). -/
def applyOp (sh : List CardType → List CardType) (s : PlayerState) : Op → PlayerState
  | .draw n => (drawToHand sh n s).1
  | .discard i => (discardFromHand i s).1
  | .resolve k => (resolveHand sh k s).1

/-- Apply a sequence of operations in order. -/
def applyOps (sh : List CardType → List CardType) (ops : List Op)
    (s : PlayerState) : PlayerState :=
  ops.foldl (applyOp sh) s

/-- Total number of cards across the three piles of a player state. -/
def totalCards (s : PlayerState) : Nat :=
  s.deck.cards.length + s.hand.length + s.discard.length

/-- Number of cards still available to draw: deck plus discard. -/
def availCards (s : PlayerState) : Nat :=
  s.deck.cards.length + s.discard.length

/-- A card counted as a joker by the scanning loops: a rankless `Number`
(the deck's joker) or a `Joker` variant. -/
def isWildcard : CardType → Bool
  | .Number none _ => true
  | .Number (some _) _ => false
  | .Joker _ _ _ => true

/-- The rank of a numbered card. -/
def rankOf : CardType → Option Nat
  | .Number (some n) _ => some n
  | _ => none

/-- Well-formedness of a card as produced by `Deck::new`: either a wildcard,
or a numbered card whose suit has a real (non-`None`) element. -/
def wellFormedCard : CardType → Bool
  | .Number (some _) suit => decide (suit.element ≠ ElementType.None)
  | _ => true

/-- The Air suit of the standard deck. -/
def airSuit : Suit := ⟨":diamonds: = :cloud_tornado:", ElementType.Air⟩

/-- The Fire suit of the standard deck. -/
def fireSuit : Suit := ⟨":hearts: = :fire:", ElementType.Fire⟩

/-- The Ice suit of the standard deck. -/
def iceSuit : Suit := ⟨":spades: = :snowflake:", ElementType.Ice⟩

/-- The Earth suit of the standard deck. -/
def earthSuit : Suit := ⟨":clubs: = :rock:", ElementType.Earth⟩

/-- The element a card contributes through its suit (`ElementType.None` for
the deck's joker and for `Joker` cards, which carry no fixed suit). -/
def cardElement : CardType → ElementType
  | .Number _ suit => suit.element
  | .Joker _ _ _ => ElementType.None

/-- Number of card indices each combo variant consumes: 2 for `MatchedEdge`,
3 for `TripleThreat`, 4 for `Jackpot` and `DoubleTrouble`. -/
def comboArity : HandType → Nat
  | .MatchedEdge _ _ _ => 2
  | .TripleThreat _ _ _ => 3
  | .Jackpot _ _ _ => 4
  | .DoubleTrouble _ _ _ _ => 4

/-- Player-state store from `src/state.rs` (`PlayerStateManager`): the
player map (`HashMap<UserId, PlayerState>`, keyed here by the numeric user
id) and the serde-skipped `dirty` flag. The `last_save` `Instant` carries no
engine-visible information and real time is not modelled. -/
structure PlayerStateManager where
  players : List (Nat × PlayerState)
  dirty : Bool

/-- `PlayerStateManager::new` from `src/state.rs`: empty store, clean. -/
def PlayerStateManager.new : PlayerStateManager := ⟨[], false⟩

/-- `PlayerStateManager::load_state` from `src/state.rs`. The filesystem
read is the parameter `readResult` (`none` models an `fs::read_to_string`
error, e.g. a missing file) and serde JSON parsing is the parameter `parse`
(`.error e` models a parse failure, which the source propagates with `?`).
A read error yields a fresh store; a successful parse clears the dirty
flag. -/
def loadState (parse : String → Except String PlayerStateManager)
    (readResult : Option String) : Except String PlayerStateManager :=
  match readResult with
  | some json =>
    (match parse json with
     | .ok st => .ok { st with dirty := false }
     | .error e => .error e)
  | none => .ok PlayerStateManager.new

/-- The startup wrapper in `main` (`src/main.rs`):
`load_state().unwrap_or_else(|e| ... PlayerStateManager::new())`. -/
def loadOrFresh (parse : String → Except String PlayerStateManager)
    (readResult : Option String) : PlayerStateManager :=
  match loadState parse readResult with
  | .ok st => st
  | .error _ => PlayerStateManager.new

/-- A 4-card hand `[2 Fire, 1 Air, 1 Fire, 2 Ice]` over a 5-card deck; its
combo list contains the double trouble `(1, 2)` with `card_indices`
`[1, 2, 0, 3]`, whose resolution exercises the reversed — not descending —
discard order of `resolve_hand`. -/
def dtProbeState : PlayerState :=
  ⟨⟨[CardType.Number (some 5) fireSuit, CardType.Number (some 6) fireSuit,
     CardType.Number (some 7) fireSuit, CardType.Number (some 5) iceSuit,
     CardType.Number (some 6) iceSuit]⟩,
   [CardType.Number (some 2) fireSuit, CardType.Number (some 1) airSuit,
    CardType.Number (some 1) fireSuit, CardType.Number (some 2) iceSuit],
   []⟩


theorem popLast_some {α : Type} :
    ∀ (l : List α) (c : α) (r : List α), popLast l = some (c, r) → l = r ++ [c] := by
  intro l
  induction l with
  | nil => intro c r h; simp [popLast] at h
  | cons a t ih =>
    intro c r h
    cases t with
    | nil =>
      simp only [popLast, Option.some.injEq, Prod.mk.injEq] at h
      simp [← h.1, ← h.2]
    | cons b rest =>
      simp only [popLast] at h
      cases h2 : popLast (b :: rest) with
      | none => rw [h2] at h; simp at h
      | some pr =>
        obtain ⟨c2, l2⟩ := pr
        rw [h2] at h
        simp only [Option.some.injEq, Prod.mk.injEq] at h
        have hb := ih c2 l2 h2
        rw [← h.1, ← h.2]
        simp [hb]

theorem popLast_of_ne_nil {α : Type} :
    ∀ (l : List α), l ≠ [] → ∃ c r, popLast l = some (c, r) ∧ l = r ++ [c] := by
  intro l
  induction l with
  | nil => intro h; exact absurd rfl h
  | cons a t ih =>
    intro _
    cases t with
    | nil => exact ⟨a, [], rfl, rfl⟩
    | cons b rest =>
      obtain ⟨c, r, h1, h2⟩ := ih (List.cons_ne_nil b rest)
      refine ⟨c, a :: r, ?_, by simp [h2]⟩
      simp [popLast, h1]

theorem popLast_none {α : Type} (l : List α) (h : popLast l = none) : l = [] := by
  by_contra hne
  obtain ⟨c, r, h1, _⟩ := popLast_of_ne_nil l hne
  rw [h1] at h
  exact Option.noConfusion h

theorem drawToHand_fst_totalCards (sh : List CardType → List CardType)
    (hlen : ∀ l, (sh l).length = l.length) :
    ∀ (n : Nat) (s : PlayerState), totalCards (drawToHand sh n s).1 = totalCards s := by
  intro n
  induction n with
  | zero => intro s; rfl
  | succ n ih =>
    intro s
    rw [drawToHand]
    cases h : popLast s.deck.cards with
    | some pr =>
      obtain ⟨c, rest⟩ := pr
      have hd := popLast_some _ _ _ h
      rw [ih]
      simp [totalCards, hd]
      omega
    | none =>
      have hnil := popLast_none _ h
      by_cases hd : s.discard.isEmpty
      · simp [hd, totalCards]
      · simp only [hd, if_false, Bool.false_eq_true]
        have hlen2 : (sh (s.deck.cards ++ s.discard)).length = s.discard.length := by
          rw [hlen]; simp [hnil]
        cases h2 : popLast (sh (s.deck.cards ++ s.discard)) with
        | some pr =>
          obtain ⟨c, rest⟩ := pr
          have hd2 := popLast_some _ _ _ h2
          rw [ih]
          have : rest.length + 1 = s.discard.length := by
            rw [← hlen2, hd2]; simp
          simp [totalCards, hnil]
          omega
        | none =>
          have hsh : sh (s.deck.cards ++ s.discard) = [] := popLast_none _ h2
          have hd0 : s.discard.length = 0 := by rw [← hlen2, hsh]; rfl
          rw [hnil] at hsh
          simp only [List.nil_append] at hsh
          simp [totalCards, hnil, hsh, hd0]

theorem discardFromHand_fst_totalCards (i : Nat) (s : PlayerState) :
    totalCards (discardFromHand i s).1 = totalCards s := by
  rw [discardFromHand]
  cases h : s.hand[i]? with
  | none => rfl
  | some c =>
    obtain ⟨hlt, _⟩ := List.getElem?_eq_some_iff.1 h
    simp [totalCards, List.length_eraseIdx, hlt]
    omega

theorem discardIndices_fst_totalCards :
    ∀ (idxs : List Nat) (s : PlayerState),
      totalCards (discardIndices idxs s).1 = totalCards s := by
  intro idxs
  induction idxs with
  | nil => intro s; rfl
  | cons i rest ih =>
    intro s
    rw [discardIndices]
    cases h : discardFromHand i s with
    | mk s1 err =>
      have h1 : totalCards s1 = totalCards s := by
        have := discardFromHand_fst_totalCards i s
        rw [h] at this
        exact this
      cases err with
      | none => simpa [ih s1] using h1
      | some e => simpa using h1

theorem resolveHand_fst_totalCards (sh : List CardType → List CardType)
    (hlen : ∀ l, (sh l).length = l.length) (k : Nat) (s : PlayerState) :
    totalCards (resolveHand sh k s).1 = totalCards s := by
  rw [resolveHand]
  by_cases hk : k = 0 ∨ (findPossibleHands s).length < k
  · simp [hk]
  · simp only [hk, if_false]
    cases hc : (findPossibleHands s)[k - 1]? with
    | none => rfl
    | some combo =>
      dsimp only
      have key := discardIndices_fst_totalCards combo.card_indices.reverse s
      set p := discardIndices combo.card_indices.reverse s with hp
      obtain ⟨s1, err⟩ := p
      cases err with
      | some e => simpa using key
      | none =>
        dsimp only at key ⊢
        by_cases h2 : 0 < (((5 : Int) - s1.hand.length) % (usizeMod : Int)).toNat
        · simp only [h2, if_true]
          rw [drawToHand_fst_totalCards sh hlen]
          exact key
        · simpa [h2] using key

theorem applyOp_totalCards (sh : List CardType → List CardType)
    (hlen : ∀ l, (sh l).length = l.length) (s : PlayerState) (op : Op) :
    totalCards (applyOp sh s op) = totalCards s := by
  cases op with
  | draw n => exact drawToHand_fst_totalCards sh hlen n s
  | discard i => exact discardFromHand_fst_totalCards i s
  | resolve k => exact resolveHand_fst_totalCards sh hlen k s

theorem applyOps_totalCards (sh : List CardType → List CardType)
    (hlen : ∀ l, (sh l).length = l.length) :
    ∀ (ops : List Op) (s : PlayerState),
      totalCards (applyOps sh ops s) = totalCards s := by
  intro ops
  induction ops with
  | nil => intro s; rfl
  | cons op rest ih =>
    intro s
    show totalCards (applyOps sh rest (applyOp sh s op)) = totalCards s
    rw [ih, applyOp_totalCards sh hlen]

theorem new_totalCards (sh : List CardType → List CardType)
    (hlen : ∀ l, (sh l).length = l.length) :
    totalCards (PlayerState.new sh) = 30 := by
  simp only [totalCards, PlayerState.new, hlen]
  rfl

/-- C3: every draw, discard and combo-resolution operation — succeeding or
failing — conserves the total card count `|deck| + |hand| + |discard|`, the
count is 30 for a state freshly created by `start_new_combat`
(`PlayerState::new`), and hence every sequence of such operations started
from a fresh state keeps the count at 30, for any length-preserving
shuffle. -/
theorem c3_card_count_conservation (sh : List CardType → List CardType)
    (hlen : ∀ l, (sh l).length = l.length) :
    (∀ (s : PlayerState) (op : Op), totalCards (applyOp sh s op) = totalCards s) ∧
    totalCards (PlayerState.new sh) = 30 ∧
    (∀ ops : List Op, totalCards (applyOps sh ops (PlayerState.new sh)) = 30) := by
  refine ⟨applyOp_totalCards sh hlen, new_totalCards sh hlen, fun ops => ?_⟩
  rw [applyOps_totalCards sh hlen, new_totalCards sh hlen]

/-- Witness for C3 at the identity shuffle and a concrete operation
sequence. -/
theorem c3_card_count_conservation_witness :
    totalCards (applyOps id [Op.draw 5, Op.discard 2, Op.resolve 1, Op.draw 40]
      (PlayerState.new id)) = 30 :=
  (c3_card_count_conservation id (fun _ => rfl)).2.2
    [Op.draw 5, Op.discard 2, Op.resolve 1, Op.draw 40]

/-- C9: `discard_from_hand` with an index at or beyond the hand length fails
with the `IndexOutOfBounds` error and leaves the state unchanged. -/
theorem c9_discard_out_of_bounds (i : Nat) (s : PlayerState)
    (h : s.hand.length ≤ i) :
    discardFromHand i s = (s, some oobMsg) := by
  rw [discardFromHand, List.getElem?_eq_none h]

/-- Witness for C9 on an empty hand. -/
theorem c9_discard_out_of_bounds_witness :
    discardFromHand 0 ⟨⟨[]⟩, [], []⟩ = (⟨⟨[]⟩, [], []⟩, some oobMsg) :=
  c9_discard_out_of_bounds 0 ⟨⟨[]⟩, [], []⟩ (Nat.le_refl 0)

/-- C10: drawing zero cards always succeeds and changes nothing, whatever
the state — in particular also when deck and discard are both empty. -/
theorem c10_draw_zero (sh : List CardType → List CardType) (s : PlayerState) :
    drawToHand sh 0 s = (s, none) :=
  rfl

theorem drawToHand_recycle (sh : List CardType → List CardType)
    (hlen : ∀ l, (sh l).length = l.length) (s : PlayerState) (n : Nat)
    (hdeck : s.deck.cards = []) (hdisc : s.discard ≠ []) :
    ∃ c rest, sh (s.deck.cards ++ s.discard) = rest ++ [c] ∧
      drawToHand sh (n + 1) s = drawToHand sh n ⟨⟨rest⟩, s.hand ++ [c], []⟩ := by
  have hpop0 : popLast s.deck.cards = none := by rw [hdeck]; rfl
  have hie : s.discard.isEmpty = false := by
    cases hx : s.discard.isEmpty
    · rfl
    · exact absurd (List.isEmpty_iff.mp hx) hdisc
  have hne2 : sh (s.deck.cards ++ s.discard) ≠ [] := by
    intro hx
    have := hlen (s.deck.cards ++ s.discard)
    rw [hx, hdeck] at this
    simp at this
    exact hdisc (List.length_eq_zero.mp this.symm)
  obtain ⟨c, rest, hpop, hdecomp⟩ := popLast_of_ne_nil _ hne2
  refine ⟨c, rest, hdecomp, ?_⟩
  rw [drawToHand]
  simp [hpop0, hie, hpop]

theorem drawToHand_exhaust (sh : List CardType → List CardType)
    (s : PlayerState) (n : Nat)
    (hdeck : s.deck.cards = []) (hdisc : s.discard = []) :
    drawToHand sh (n + 1) s = (s, some exhaustedMsg) := by
  have hpop0 : popLast s.deck.cards = none := by rw [hdeck]; rfl
  have hie : s.discard.isEmpty = true := by rw [hdisc]; rfl
  rw [drawToHand]
  simp [hpop0, hie]

theorem drawToHand_main (sh : List CardType → List CardType)
    (hlen : ∀ l, (sh l).length = l.length) :
    ∀ (n : Nat) (s : PlayerState),
      (availCards s < n →
        ∃ extra : List CardType,
          drawToHand sh n s = (⟨⟨[]⟩, s.hand ++ extra, []⟩, some exhaustedMsg) ∧
          extra.length = availCards s) ∧
      (n ≤ availCards s →
        (drawToHand sh n s).2 = none ∧
        (drawToHand sh n s).1.hand.length = s.hand.length + n ∧
        availCards (drawToHand sh n s).1 = availCards s - n) := by
  intro n
  induction n with
  | zero =>
    intro s
    exact ⟨fun h => absurd h (Nat.not_lt_zero _), fun _ => ⟨rfl, rfl, rfl⟩⟩
  | succ n ih =>
    intro s
    cases h : popLast s.deck.cards with
    | some pr =>
      obtain ⟨c, rest⟩ := pr
      have hd := popLast_some _ _ _ h
      have hstep : drawToHand sh (n + 1) s =
          drawToHand sh n ⟨⟨rest⟩, s.hand ++ [c], s.discard⟩ := by
        rw [drawToHand]; simp [h]
      have hav : availCards s = availCards ⟨⟨rest⟩, s.hand ++ [c], s.discard⟩ + 1 := by
        simp [availCards, hd]
        omega
      obtain ⟨ih1, ih2⟩ := ih ⟨⟨rest⟩, s.hand ++ [c], s.discard⟩
      constructor
      · intro hlt
        obtain ⟨extra, he, hext⟩ := ih1 (by omega)
        refine ⟨c :: extra, ?_, ?_⟩
        · rw [hstep, he]; simp
        · simp only [List.length_cons]
          omega
      · intro hle
        obtain ⟨h1, h2, h3⟩ := ih2 (by omega)
        rw [hstep]
        refine ⟨h1, ?_, by omega⟩
        simp only [List.length_append, List.length_cons, List.length_nil] at h2
        omega
    | none =>
      have hnil := popLast_none _ h
      by_cases hd : s.discard.isEmpty
      · have hdnil : s.discard = [] := List.isEmpty_iff.mp hd
        have hstep : drawToHand sh (n + 1) s = (s, some exhaustedMsg) :=
          drawToHand_exhaust sh s n hnil hdnil
        have hav0 : availCards s = 0 := by simp [availCards, hnil, hdnil]
        constructor
        · intro _
          refine ⟨[], ?_, by simp [hav0]⟩
          rw [hstep]
          have hs : s = ⟨⟨[]⟩, s.hand, []⟩ := by
            cases s with
            | mk d hh dd =>
              cases d with
              | mk dc => simp at hnil hdnil; simp [hnil, hdnil]
          rw [hs]
          simp
        · intro hle
          rw [hav0] at hle
          exact absurd hle (by omega)
      · have hdne : s.discard ≠ [] := fun hx => by simp [hx] at hd
        obtain ⟨c, rest, hdecomp, hstep⟩ :=
          drawToHand_recycle sh hlen s n hnil hdne
        have hrest : rest.length + 1 = s.discard.length := by
          have := hlen (s.deck.cards ++ s.discard)
          rw [hdecomp] at this
          simp [hnil] at this
          omega
        have hav : availCards s = availCards ⟨⟨rest⟩, s.hand ++ [c], []⟩ + 1 := by
          simp [availCards, hnil]
          omega
        obtain ⟨ih1, ih2⟩ := ih ⟨⟨rest⟩, s.hand ++ [c], []⟩
        constructor
        · intro hlt
          obtain ⟨extra, he, hext⟩ := ih1 (by omega)
          refine ⟨c :: extra, ?_, ?_⟩
          · rw [hstep, he]; simp
          · simp only [List.length_cons]
            omega
        · intro hle
          obtain ⟨h1, h2, h3⟩ := ih2 (by omega)
          rw [hstep]
          refine ⟨h1, ?_, by omega⟩
          simp only [List.length_append, List.length_cons, List.length_nil] at h2
          omega

/-- C4: for any length-preserving shuffle: (i) drawing with an empty deck and
non-empty discard moves all discard cards into the deck, reshuffles, pops one
card into the hand and continues; (ii) drawing with both empty fails with the
`ExhaustedSupply` error; (iii) a draw that exhausts the supply mid-way keeps
every card already drawn (the original hand extended by all remaining cards,
deck and discard left empty) and reports the error; (iv) a draw for which
enough cards exist succeeds. -/
theorem c4_draw_recycling (sh : List CardType → List CardType)
    (hlen : ∀ l, (sh l).length = l.length) (s : PlayerState) (n : Nat) :
    (s.deck.cards = [] → s.discard ≠ [] →
      ∃ c rest, sh (s.deck.cards ++ s.discard) = rest ++ [c] ∧
        drawToHand sh (n + 1) s = drawToHand sh n ⟨⟨rest⟩, s.hand ++ [c], []⟩) ∧
    (s.deck.cards = [] → s.discard = [] →
      drawToHand sh (n + 1) s = (s, some exhaustedMsg)) ∧
    (availCards s < n →
      ∃ extra : List CardType,
        drawToHand sh n s = (⟨⟨[]⟩, s.hand ++ extra, []⟩, some exhaustedMsg) ∧
        extra.length = availCards s) ∧
    (n ≤ availCards s → (drawToHand sh n s).2 = none) :=
  ⟨fun hdeck hdisc => drawToHand_recycle sh hlen s n hdeck hdisc,
   fun hdeck hdisc => drawToHand_exhaust sh s n hdeck hdisc,
   (drawToHand_main sh hlen n s).1,
   fun hle => ((drawToHand_main sh hlen n s).2 hle).1⟩

/-- Witness for C4 at the identity shuffle, an empty deck, a one-card discard
pile and a two-card draw request. -/
theorem c4_draw_recycling_witness :
    ((⟨⟨[]⟩, [], [jokerCard]⟩ : PlayerState).deck.cards = [] →
      (⟨⟨[]⟩, [], [jokerCard]⟩ : PlayerState).discard ≠ [] →
      ∃ c rest, id ((⟨⟨[]⟩, [], [jokerCard]⟩ : PlayerState).deck.cards ++
          (⟨⟨[]⟩, [], [jokerCard]⟩ : PlayerState).discard) = rest ++ [c] ∧
        drawToHand id (1 + 1) ⟨⟨[]⟩, [], [jokerCard]⟩ =
          drawToHand id 1 ⟨⟨rest⟩, [] ++ [c], []⟩) ∧
    ((⟨⟨[]⟩, [], [jokerCard]⟩ : PlayerState).deck.cards = [] →
      (⟨⟨[]⟩, [], [jokerCard]⟩ : PlayerState).discard = [] →
      drawToHand id (1 + 1) ⟨⟨[]⟩, [], [jokerCard]⟩ =
        (⟨⟨[]⟩, [], [jokerCard]⟩, some exhaustedMsg)) ∧
    (availCards ⟨⟨[]⟩, [], [jokerCard]⟩ < 1 →
      ∃ extra : List CardType,
        drawToHand id 1 ⟨⟨[]⟩, [], [jokerCard]⟩ =
          (⟨⟨[]⟩, [] ++ extra, []⟩, some exhaustedMsg) ∧
        extra.length = availCards ⟨⟨[]⟩, [], [jokerCard]⟩) ∧
    (1 ≤ availCards ⟨⟨[]⟩, [], [jokerCard]⟩ →
      (drawToHand id 1 ⟨⟨[]⟩, [], [jokerCard]⟩).2 = none) :=
  c4_draw_recycling id (fun _ => rfl) ⟨⟨[]⟩, [], [jokerCard]⟩ 1

theorem deck_cards_wellFormed : ∀ c ∈ Deck.new.cards, wellFormedCard c = true := by
  decide

theorem scan_wellFormed (v : Nat) :
    ∀ (cards : List CardType) (val : Option Nat) (jc : Nat) (el : List ElementType),
      (val = none ∨ val = some v) →
      (∀ c ∈ cards, wellFormedCard c = true) →
      (∀ c ∈ cards, ∀ r, rankOf c = some r → r = v) →
      ∃ st : ScanState,
        cards.foldlM scanStep ⟨val, jc, el⟩ = some st ∧
        st.jokerCount = jc + cards.countP isWildcard ∧
        st.jokerCount + st.nonJokerSuits.length = jc + el.length + cards.length ∧
        (st.value = none ∨ st.value = some v) ∧
        ((val = some v ∨ ∃ c ∈ cards, isWildcard c = false) → st.value = some v) := by
  intro cards
  induction cards with
  | nil =>
    intro val jc el hval _ _
    refine ⟨⟨val, jc, el⟩, rfl, by simp, by simp, hval, ?_⟩
    intro h
    simpa using h
  | cons c0 cs ih =>
    intro val jc el hval hwf hrank
    have hwfc := hwf c0 (List.mem_cons_self c0 cs)
    have hrankc := hrank c0 (List.mem_cons_self c0 cs)
    have hwf2 : ∀ x ∈ cs, wellFormedCard x = true :=
      fun x hx => hwf x (List.mem_cons_of_mem c0 hx)
    have hrank2 : ∀ x ∈ cs, ∀ r, rankOf x = some r → r = v :=
      fun x hx => hrank x (List.mem_cons_of_mem c0 hx)
    cases c0 with
    | Number numOpt suit =>
      cases numOpt with
      | some n =>
        have hn : n = v := hrankc n rfl
        subst hn
        have helem : suit.element ≠ ElementType.None := by
          simp [wellFormedCard] at hwfc
          exact hwfc
        have hstep : scanStep ⟨val, jc, el⟩ (CardType.Number (some n) suit) =
            some ⟨some n, jc, el ++ [suit.element]⟩ := by
          simp [scanStep, hval, helem]
        obtain ⟨st, h1, h2, h3, h4, h5⟩ := ih (some n) jc (el ++ [suit.element])
          (Or.inr rfl) hwf2 hrank2
        refine ⟨st, ?_, ?_, ?_, h4, fun _ => h5 (Or.inl rfl)⟩
        · rw [List.foldlM_cons, hstep]
          exact h1
        · rw [h2, List.countP_cons]
          simp [isWildcard]
        · rw [h3]
          simp
          omega
      | none =>
        have hstep : scanStep ⟨val, jc, el⟩ (CardType.Number none suit) =
            some ⟨val, jc + 1, el⟩ := rfl
        obtain ⟨st, h1, h2, h3, h4, h5⟩ := ih val (jc + 1) el hval hwf2 hrank2
        refine ⟨st, ?_, ?_, ?_, h4, ?_⟩
        · rw [List.foldlM_cons, hstep]
          exact h1
        · rw [h2, List.countP_cons]
          simp [isWildcard]
          omega
        · rw [h3]
          simp
          omega
        · intro h
          refine h5 ?_
          rcases h with h | ⟨x, hx, hxw⟩
          · exact Or.inl h
          · rcases List.mem_cons.mp hx with rfl | hx2
            · simp [isWildcard] at hxw
            · exact Or.inr ⟨x, hx2, hxw⟩
    | Joker q w e =>
      have hstep : scanStep ⟨val, jc, el⟩ (CardType.Joker q w e) =
          some ⟨val, jc + 1, el⟩ := rfl
      obtain ⟨st, h1, h2, h3, h4, h5⟩ := ih val (jc + 1) el hval hwf2 hrank2
      refine ⟨st, ?_, ?_, ?_, h4, ?_⟩
      · rw [List.foldlM_cons, hstep]
        exact h1
      · rw [h2, List.countP_cons]
        simp [isWildcard]
        omega
      · rw [h3]
        simp
        omega
      · intro h
        refine h5 ?_
        rcases h with h | ⟨x, hx, hxw⟩
        · exact Or.inl h
        · rcases List.mem_cons.mp hx with rfl | hx2
          · simp [isWildcard] at hxw
          · exact Or.inr ⟨x, hx2, hxw⟩

/-- C2: a 3-card subset of the hand containing at least one wildcard, at
least one numbered card, all numbered cards sharing rank `v` and all cards
well-formed (as every card built by `Deck::new` is), matches as a
`TripleThreat` of value `v` whose element list is the full four-element set
`[Air, Earth, Fire, Ice]` — a permutation of the spec's `[Fire, Earth, Ice,
Air]` — and not merely the numbered cards' own suits. -/
theorem c2_triple_wildcard_full_elements (s : PlayerState) (i j k v : Nat)
    (a b c : CardType)
    (ha : s.hand[i]? = some a) (hb : s.hand[j]? = some b)
    (hc : s.hand[k]? = some c)
    (hwf : ∀ x ∈ [a, b, c], wellFormedCard x = true)
    (hrank : ∀ x ∈ [a, b, c], ∀ r, rankOf x = some r → r = v)
    (hwild : ∃ x ∈ [a, b, c], isWildcard x = true)
    (hnum : ∃ x ∈ [a, b, c], isWildcard x = false) :
    checkTriple s i j k =
      some (HandType.TripleThreat v allElements [i, j, k]) ∧
    allElements.Perm
      [ElementType.Fire, ElementType.Earth, ElementType.Ice, ElementType.Air] := by
  obtain ⟨st, h1, h2, h3, _, h5⟩ :=
    scan_wellFormed v [a, b, c] none 0 [] (Or.inl rfl) hwf hrank
  have hv : st.value = some v := h5 (Or.inr hnum)
  have hjc : 0 < st.jokerCount := by
    rw [h2]
    obtain ⟨x, hx, hxw⟩ := hwild
    have := List.countP_pos_iff.mpr ⟨x, hx, hxw⟩
    omega
  have h1s : scanCards [a, b, c] = some st := h1
  have h3s : st.jokerCount + st.nonJokerSuits.length = 3 := by simpa using h3
  constructor
  · rw [checkTriple, ha, hb, hc]
    dsimp only
    rw [h1s]
    dsimp only
    rw [if_pos h3s, hv]
    simp [hjc]
  · decide

/-- Witness for C2 at the spec's own example: hand `[4 Fire, 4 Ice, joker]`. -/
theorem c2_triple_wildcard_full_elements_witness :
    checkTriple
      ⟨⟨[]⟩,
       [CardType.Number (some 4) ⟨":hearts: = :fire:", ElementType.Fire⟩,
        CardType.Number (some 4) ⟨":spades: = :snowflake:", ElementType.Ice⟩,
        jokerCard],
       []⟩ 0 1 2 =
      some (HandType.TripleThreat 4 allElements [0, 1, 2]) ∧
    allElements.Perm
      [ElementType.Fire, ElementType.Earth, ElementType.Ice, ElementType.Air] :=
  c2_triple_wildcard_full_elements _ 0 1 2 4
    (CardType.Number (some 4) ⟨":hearts: = :fire:", ElementType.Fire⟩)
    (CardType.Number (some 4) ⟨":spades: = :snowflake:", ElementType.Ice⟩)
    jokerCard
    rfl rfl rfl
    (by decide) (by decide) (by decide) (by decide)

/-- C5 counterexample: a present-but-corrupt snapshot (the parse fails) is
NOT recovered inside `load_state`: the function propagates the parse error
to its caller instead of returning the empty fresh store. -/
theorem c5_load_parse_failure_counterexample :
    loadState (fun _ => Except.error "expected value") (some "not json") =
      Except.error "expected value" ∧
    loadState (fun _ => Except.error "expected value") (some "not json") ≠
      Except.ok PlayerStateManager.new :=
  ⟨rfl, fun h => Except.noConfusion h⟩

/-- C5 (amended): `load_state` returns the parsed snapshot with the dirty
flag cleared when the file both reads and parses; on a read failure
(missing file) it returns the empty fresh store; on a parse failure it
returns the error to its caller — and the startup wrapper in `main`
substitutes the empty fresh store, so a corrupt or missing snapshot is
never fatal to startup. -/
theorem c5_load_fallback (parse : String → Except String PlayerStateManager)
    (json e : String) (st : PlayerStateManager) :
    loadState parse none = Except.ok PlayerStateManager.new ∧
    (parse json = Except.ok st →
      loadState parse (some json) = Except.ok { st with dirty := false }) ∧
    (parse json = Except.error e →
      loadState parse (some json) = Except.error e) ∧
    (parse json = Except.error e →
      loadOrFresh parse (some json) = PlayerStateManager.new) ∧
    loadOrFresh parse none = PlayerStateManager.new := by
  refine ⟨rfl, ?_, ?_, ?_, rfl⟩
  · intro h
    simp [loadState, h]
  · intro h
    simp [loadState, h]
  · intro h
    simp [loadOrFresh, loadState, h]

/-- Witness for C5 (amended) with a concrete always-failing parser. -/
theorem c5_load_fallback_witness :
    loadState (fun _ => Except.error "bad") none =
      Except.ok PlayerStateManager.new ∧
    loadState (fun _ => Except.error "bad") (some "x") = Except.error "bad" ∧
    loadOrFresh (fun _ => Except.error "bad") (some "x") =
      PlayerStateManager.new :=
  ⟨(c5_load_fallback (fun _ => Except.error "bad") "x" "bad"
      PlayerStateManager.new).1,
   (c5_load_fallback (fun _ => Except.error "bad") "x" "bad"
      PlayerStateManager.new).2.2.1 rfl,
   (c5_load_fallback (fun _ => Except.error "bad") "x" "bad"
      PlayerStateManager.new).2.2.2.1 rfl⟩

/-- C1: the code discards a chosen combo's `card_indices` iterated in
reversed insertion order, not in descending numeric order as the spec
requires. For the 4-card hand `[2 Fire, 1 Air, 1 Fire, 2 Ice]`, selection 2
is a valid 1-based choice (4 combos exist) naming the double trouble with
`card_indices = [1, 2, 0, 3]`; `resolve_hand` iterates `[3, 0, 2, 1]`,
discards the cards at indices 3 and 0, then fails with the
`IndexOutOfBounds` error: the two remaining referenced cards are never
discarded, no redraw happens, and the hand is left at 2 cards instead
of 5. -/
theorem c1_resolve_reversed_order_not_descending :
    (findPossibleHands dtProbeState).length = 4 ∧
    (findPossibleHands dtProbeState)[1]? =
      some (HandType.DoubleTrouble 1 2
        [ElementType.Air, ElementType.Fire, ElementType.Ice] [1, 2, 0, 3]) ∧
    resolveHand id 2 dtProbeState =
      (⟨dtProbeState.deck,
        [CardType.Number (some 1) airSuit, CardType.Number (some 1) fireSuit],
        [CardType.Number (some 2) iceSuit, CardType.Number (some 2) fireSuit]⟩,
       some oobMsg) := by
  refine ⟨by decide, by decide, by decide⟩

theorem checkPair_shape {s : PlayerState} {i j : Nat} {ht : HandType}
    (h : checkPair s i j = some ht) :
    ∃ v su, ht = HandType.MatchedEdge v su [i, j] := by
  rw [checkPair] at h
  cases ha : s.hand[i]? <;> cases hb : s.hand[j]? <;> rw [ha, hb] at h <;>
    dsimp only at h
  case none.none => exact absurd h (by simp)
  case none.some => exact absurd h (by simp)
  case some.none => exact absurd h (by simp)
  case some.some a b =>
    cases hscan : scanCards [a, b] <;> rw [hscan] at h <;> dsimp only at h
    case none => exact absurd h (by simp)
    case some st =>
      by_cases hq : st.jokerCount + st.nonJokerSuits.length = 2
      · rw [if_pos hq] at h
        exact ⟨_, _, (Option.some.injEq _ _ |>.mp h).symm⟩
      · rw [if_neg hq] at h
        exact absurd h (by simp)

theorem checkTriple_shape {s : PlayerState} {i j k : Nat} {ht : HandType}
    (h : checkTriple s i j k = some ht) :
    ∃ v su, ht = HandType.TripleThreat v su [i, j, k] := by
  rw [checkTriple] at h
  cases ha : s.hand[i]? <;> cases hb : s.hand[j]? <;> cases hc : s.hand[k]? <;>
    rw [ha, hb, hc] at h <;> dsimp only at h
  case some.some.some a b c =>
    cases hscan : scanCards [a, b, c] <;> rw [hscan] at h <;> dsimp only at h
    case none => exact absurd h (by simp)
    case some st =>
      by_cases hq : st.jokerCount + st.nonJokerSuits.length = 3
      · rw [if_pos hq] at h
        exact ⟨_, _, (Option.some.injEq _ _ |>.mp h).symm⟩
      · rw [if_neg hq] at h
        exact absurd h (by simp)
  all_goals exact absurd h (by simp)

theorem checkJackpot_shape {s : PlayerState} {i j k l : Nat} {ht : HandType}
    (h : checkJackpot s i j k l = some ht) :
    ∃ v su, ht = HandType.Jackpot v su [i, j, k, l] := by
  rw [checkJackpot] at h
  cases ha : s.hand[i]? <;> cases hb : s.hand[j]? <;> cases hc : s.hand[k]? <;>
    cases hd : s.hand[l]? <;> rw [ha, hb, hc, hd] at h <;> dsimp only at h
  case some.some.some.some a b c d =>
    cases hscan : [a, b, c, d].foldlM scanJackpotStep ⟨none, 0, []⟩ <;>
      rw [hscan] at h <;> dsimp only at h
    case none => exact absurd h (by simp)
    case some st =>
      by_cases hq : st.nonJokerSuits.length = 4
      · rw [if_pos hq] at h
        exact ⟨_, _, (Option.some.injEq _ _ |>.mp h).symm⟩
      · rw [if_neg hq] at h
        exact absurd h (by simp)
  all_goals exact absurd h (by simp)

theorem checkDoubleTrouble_eq {s : PlayerState} {i j k l : Nat}
    {p1 p2 : Nat × List ElementType}
    (h1 : checkPairValue s i j = some p1) (h2 : checkPairValue s k l = some p2) :
    ∃ su, checkDoubleTrouble s i j k l =
      some (HandType.DoubleTrouble p1.1 p2.1 su [i, j, k, l]) := by
  rw [checkDoubleTrouble, h1]
  dsimp only
  rw [h2]
  exact ⟨_, rfl⟩

theorem mem_pairBlock {s : PlayerState} {ht : HandType} (h : ht ∈ pairBlock s) :
    ∃ i j, i < j ∧ j < s.hand.length ∧ checkPair s i j = some ht := by
  simp only [pairBlock, List.mem_flatMap, List.mem_range] at h
  obtain ⟨i, hi, j, hj, hmem⟩ := h
  by_cases hij : i < j
  · rw [if_pos hij, Option.mem_toList, Option.mem_def] at hmem
    exact ⟨i, j, hij, hj, hmem⟩
  · rw [if_neg hij] at hmem
    exact absurd hmem (by simp)

theorem mem_tripleBlock {s : PlayerState} {ht : HandType}
    (h : ht ∈ tripleBlock s) :
    ∃ i j k, i < j ∧ j < k ∧ k < s.hand.length ∧
      checkTriple s i j k = some ht := by
  simp only [tripleBlock, List.mem_flatMap, List.mem_range] at h
  obtain ⟨i, hi, j, hj, k, hk, hmem⟩ := h
  by_cases hord : i < j ∧ j < k
  · rw [if_pos hord, Option.mem_toList, Option.mem_def] at hmem
    exact ⟨i, j, k, hord.1, hord.2, hk, hmem⟩
  · rw [if_neg hord] at hmem
    exact absurd hmem (by simp)

theorem mem_jackpotBlock {s : PlayerState} {ht : HandType}
    (h : ht ∈ jackpotBlock s) :
    ∃ i j k l, i < j ∧ j < k ∧ k < l ∧ l < s.hand.length ∧
      checkJackpot s i j k l = some ht := by
  simp only [jackpotBlock, List.mem_flatMap, List.mem_range] at h
  obtain ⟨i, hi, j, hj, k, hk, l, hl, hmem⟩ := h
  by_cases hord : i < j ∧ j < k ∧ k < l
  · rw [if_pos hord, Option.mem_toList, Option.mem_def] at hmem
    exact ⟨i, j, k, l, hord.1, hord.2.1, hord.2.2, hl, hmem⟩
  · rw [if_neg hord] at hmem
    exact absurd hmem (by simp)

theorem mem_dtBlock {s : PlayerState} {ht : HandType} (h : ht ∈ dtBlock s) :
    ∃ (i j k l : Nat) (p1 p2 : Nat × List ElementType),
      i < j ∧ j < s.hand.length ∧ k < l ∧ l < s.hand.length ∧
      k ≠ i ∧ k ≠ j ∧ l ≠ i ∧ l ≠ j ∧
      checkPairValue s i j = some p1 ∧ checkPairValue s k l = some p2 ∧
      p1.1 ≠ p2.1 ∧ checkDoubleTrouble s i j k l = some ht := by
  simp only [dtBlock, List.mem_flatMap, List.mem_range] at h
  obtain ⟨i, hi, j, hj, hmem⟩ := h
  by_cases hij : i < j
  · rw [if_pos hij] at hmem
    cases hcp : checkPairValue s i j <;> rw [hcp] at hmem <;> dsimp only at hmem
    next => exact absurd hmem (by simp)
    next p1 =>
      simp only [List.mem_flatMap, List.mem_range] at hmem
      obtain ⟨k, hk, hmem⟩ := hmem
      by_cases hkij : k = i ∨ k = j
      · rw [if_pos hkij] at hmem
        exact absurd hmem (by simp)
      · rw [if_neg hkij] at hmem
        simp only [List.mem_flatMap, List.mem_range] at hmem
        obtain ⟨l, hl, hmem⟩ := hmem
        by_cases hlij : l ≤ k ∨ l = i ∨ l = j
        · rw [if_pos hlij] at hmem
          exact absurd hmem (by simp)
        · rw [if_neg hlij] at hmem
          cases hcp2 : checkPairValue s k l <;> rw [hcp2] at hmem <;>
            dsimp only at hmem
          next => exact absurd hmem (by simp)
          next p2 =>
            by_cases hne : p1.1 ≠ p2.1
            · rw [if_pos hne, Option.mem_toList, Option.mem_def] at hmem
              push_neg at hkij hlij
              refine ⟨i, j, k, l, p1, p2, hij, hj, ?_, hl,
                hkij.1, hkij.2, hlij.2.1, hlij.2.2, hcp, hcp2, hne, hmem⟩
              omega
            · rw [if_neg hne] at hmem
              exact absurd hmem (by simp)
  · rw [if_neg hij] at hmem
    exact absurd hmem (by simp)

/-- C8: every combo returned by `find_possible_hands` carries pairwise
distinct card indices, each strictly below the hand length, and exactly as
many as its variant consumes: 2 for `MatchedEdge`, 3 for `TripleThreat`,
4 for `Jackpot` and for `DoubleTrouble`. -/
theorem c8_combo_indices_invariant (s : PlayerState) (ht : HandType)
    (hmem : ht ∈ findPossibleHands s) :
    ht.card_indices.Nodup ∧
    (∀ x ∈ ht.card_indices, x < s.hand.length) ∧
    ht.card_indices.length = comboArity ht := by
  rw [findPossibleHands] at hmem
  simp only [List.mem_append] at hmem
  rcases hmem with ((h | h) | h) | h
  · by_cases h4 : 4 ≤ s.hand.length
    · rw [if_pos h4] at h
      obtain ⟨i, j, k, l, hij, hjk, hkl, hl, hcj⟩ := mem_jackpotBlock h
      obtain ⟨v, su, rfl⟩ := checkJackpot_shape hcj
      refine ⟨?_, ?_, rfl⟩
      · simp [HandType.card_indices]
        omega
      · intro x hx
        simp [HandType.card_indices] at hx
        rcases hx with rfl | rfl | rfl | rfl <;> omega
    · rw [if_neg h4] at h
      exact absurd h (by simp)
  · by_cases h4 : 4 ≤ s.hand.length
    · rw [if_pos h4] at h
      obtain ⟨i, j, k, l, p1, p2, hij, hj, hkl, hl, hki, hkj, hli, hlj,
        hcp, hcp2, hne, hcd⟩ := mem_dtBlock h
      obtain ⟨su, hcdeq⟩ := checkDoubleTrouble_eq hcp hcp2
      rw [hcd] at hcdeq
      obtain rfl : ht = HandType.DoubleTrouble p1.1 p2.1 su [i, j, k, l] :=
        Option.some.injEq _ _ |>.mp hcdeq
      refine ⟨?_, ?_, rfl⟩
      · simp [HandType.card_indices]
        omega
      · intro x hx
        simp [HandType.card_indices] at hx
        rcases hx with rfl | rfl | rfl | rfl <;> omega
    · rw [if_neg h4] at h
      exact absurd h (by simp)
  · obtain ⟨i, j, k, hij, hjk, hk, hct⟩ := mem_tripleBlock h
    obtain ⟨v, su, rfl⟩ := checkTriple_shape hct
    refine ⟨?_, ?_, rfl⟩
    · simp [HandType.card_indices]
      omega
    · intro x hx
      simp [HandType.card_indices] at hx
      rcases hx with rfl | rfl | rfl <;> omega
  · obtain ⟨i, j, hij, hj, hcp⟩ := mem_pairBlock h
    obtain ⟨v, su, rfl⟩ := checkPair_shape hcp
    refine ⟨?_, ?_, rfl⟩
    · simp [HandType.card_indices]
      omega
    · intro x hx
      simp [HandType.card_indices] at hx
      rcases hx with rfl | rfl <;> omega

/-- Witness for C8 on a concrete hand and the combo it yields. -/
theorem c8_combo_indices_invariant_witness :
    (HandType.MatchedEdge 2 [ElementType.Fire, ElementType.Ice] [0, 3]).card_indices.Nodup ∧
    (∀ x ∈ (HandType.MatchedEdge 2 [ElementType.Fire, ElementType.Ice] [0, 3]).card_indices,
      x < (⟨⟨[]⟩,
        [CardType.Number (some 2) fireSuit, CardType.Number (some 1) airSuit,
         CardType.Number (some 1) fireSuit, CardType.Number (some 2) iceSuit],
        []⟩ : PlayerState).hand.length) ∧
    (HandType.MatchedEdge 2 [ElementType.Fire, ElementType.Ice] [0, 3]).card_indices.length =
      comboArity (HandType.MatchedEdge 2 [ElementType.Fire, ElementType.Ice] [0, 3]) :=
  c8_combo_indices_invariant
    ⟨⟨[]⟩,
     [CardType.Number (some 2) fireSuit, CardType.Number (some 1) airSuit,
      CardType.Number (some 1) fireSuit, CardType.Number (some 2) iceSuit],
     []⟩
    (HandType.MatchedEdge 2 [ElementType.Fire, ElementType.Ice] [0, 3])
    (by decide)

/-- C6: every `DoubleTrouble` that `find_possible_hands` emits comes from two
index-disjoint 2-subsets, each independently passing `check_pair_value`, with
DIFFERING resolved values — so two disjoint pairs of equal resolved rank
never yield a `DoubleTrouble`. -/
theorem c6_double_trouble_distinct_values (s : PlayerState)
    (fp sp : Nat) (suits : List ElementType) (idxs : List Nat)
    (hmem : HandType.DoubleTrouble fp sp suits idxs ∈ findPossibleHands s) :
    fp ≠ sp ∧
    ∃ (i j k l : Nat) (e1 e2 : List ElementType),
      idxs = [i, j, k, l] ∧ i < j ∧ k < l ∧
      k ≠ i ∧ k ≠ j ∧ l ≠ i ∧ l ≠ j ∧
      j < s.hand.length ∧ l < s.hand.length ∧
      checkPairValue s i j = some (fp, e1) ∧
      checkPairValue s k l = some (sp, e2) := by
  rw [findPossibleHands] at hmem
  simp only [List.mem_append] at hmem
  rcases hmem with ((h | h) | h) | h
  · by_cases h4 : 4 ≤ s.hand.length
    · rw [if_pos h4] at h
      obtain ⟨i, j, k, l, _, _, _, _, hcj⟩ := mem_jackpotBlock h
      obtain ⟨v, su, heq⟩ := checkJackpot_shape hcj
      exact absurd heq (by simp)
    · rw [if_neg h4] at h
      exact absurd h (by simp)
  · by_cases h4 : 4 ≤ s.hand.length
    · rw [if_pos h4] at h
      obtain ⟨i, j, k, l, p1, p2, hij, hj, hkl, hl, hki, hkj, hli, hlj,
        hcp, hcp2, hne, hcd⟩ := mem_dtBlock h
      obtain ⟨su, hcdeq⟩ := checkDoubleTrouble_eq hcp hcp2
      rw [hcd] at hcdeq
      have hinj := Option.some.injEq _ _ |>.mp hcdeq
      simp only [HandType.DoubleTrouble.injEq] at hinj
      obtain ⟨hfp, hsp, hsu, hidx⟩ := hinj
      subst hfp
      subst hsp
      subst hidx
      refine ⟨hne, i, j, k, l, p1.2, p2.2, rfl, hij, hkl,
        hki, hkj, hli, hlj, hj, hl, ?_, ?_⟩
      · rw [hcp]
      · rw [hcp2]
    · rw [if_neg h4] at h
      exact absurd h (by simp)
  · obtain ⟨i, j, k, _, _, _, hct⟩ := mem_tripleBlock h
    obtain ⟨v, su, heq⟩ := checkTriple_shape hct
    exact absurd heq (by simp)
  · obtain ⟨i, j, _, _, hcp⟩ := mem_pairBlock h
    obtain ⟨v, su, heq⟩ := checkPair_shape hcp
    exact absurd heq (by simp)

/-- Witness for C6 on a concrete hand whose combo list contains a
`DoubleTrouble`. -/
theorem c6_double_trouble_distinct_values_witness :
    (2 : Nat) ≠ 1 ∧
    ∃ (i j k l : Nat) (e1 e2 : List ElementType),
      [0, 3, 1, 2] = [i, j, k, l] ∧ i < j ∧ k < l ∧
      k ≠ i ∧ k ≠ j ∧ l ≠ i ∧ l ≠ j ∧
      j < (⟨⟨[]⟩,
        [CardType.Number (some 2) fireSuit, CardType.Number (some 1) airSuit,
         CardType.Number (some 1) fireSuit, CardType.Number (some 2) iceSuit],
        []⟩ : PlayerState).hand.length ∧
      l < (⟨⟨[]⟩,
        [CardType.Number (some 2) fireSuit, CardType.Number (some 1) airSuit,
         CardType.Number (some 1) fireSuit, CardType.Number (some 2) iceSuit],
        []⟩ : PlayerState).hand.length ∧
      checkPairValue ⟨⟨[]⟩,
        [CardType.Number (some 2) fireSuit, CardType.Number (some 1) airSuit,
         CardType.Number (some 1) fireSuit, CardType.Number (some 2) iceSuit],
        []⟩ i j = some (2, e1) ∧
      checkPairValue ⟨⟨[]⟩,
        [CardType.Number (some 2) fireSuit, CardType.Number (some 1) airSuit,
         CardType.Number (some 1) fireSuit, CardType.Number (some 2) iceSuit],
        []⟩ k l = some (1, e2) :=
  c6_double_trouble_distinct_values
    ⟨⟨[]⟩,
     [CardType.Number (some 2) fireSuit, CardType.Number (some 1) airSuit,
      CardType.Number (some 1) fireSuit, CardType.Number (some 2) iceSuit],
     []⟩
    2 1 [ElementType.Fire, ElementType.Ice, ElementType.Air] [0, 3, 1, 2]
    (by decide)

theorem deck_numbered_count :
    ∀ x ∈ Deck.new.cards, (rankOf x).isSome = true →
      List.count x Deck.new.cards = 1 := by
  decide

theorem deck_numbered_unique :
    ∀ x ∈ Deck.new.cards, ∀ y ∈ Deck.new.cards,
      (rankOf x).isSome = true → rankOf x = rankOf y →
      cardElement x = cardElement y → x = y := by
  decide

theorem deck_numbered_element_mem :
    ∀ x ∈ Deck.new.cards, (rankOf x).isSome = true →
      cardElement x ∈ allElements := by
  decide

theorem allElements_no_none :
    ∀ e ∈ allElements, e ≠ ElementType.None := by
  decide

theorem submset_pair_ne (x y : CardType) (m : Multiset CardType)
    (hsub : x ::ₘ y ::ₘ m ≤ (↑Deck.new.cards : Multiset CardType))
    (hx : (rankOf x).isSome = true) : x ≠ y := by
  intro heq
  subst heq
  have hmem : x ∈ Deck.new.cards :=
    Multiset.mem_coe.mp (Multiset.mem_of_le hsub (Multiset.mem_cons_self x _))
  have h1 : List.count x Deck.new.cards = 1 := deck_numbered_count x hmem hx
  have h2 := Multiset.le_iff_count.mp hsub x
  rw [Multiset.count_cons_self, Multiset.count_cons_self,
    Multiset.coe_count] at h2
  omega

theorem scanJackpotStep_some {st st' : ScanState} {c : CardType}
    (h : scanJackpotStep st c = some st') :
    ∃ n suit, c = CardType.Number (some n) suit ∧
      (st.value = none ∨ st.value = some n) ∧
      st' = ⟨some n, st.jokerCount,
        if suit.element ≠ ElementType.None then st.nonJokerSuits ++ [suit.element]
        else st.nonJokerSuits⟩ := by
  cases c with
  | Number numOpt suit =>
    cases numOpt with
    | some n =>
      simp only [scanJackpotStep] at h
      by_cases hcond : st.value = none ∨ st.value = some n
      · rw [if_pos hcond] at h
        exact ⟨n, suit, rfl, hcond, (Option.some.injEq _ _ |>.mp h).symm⟩
      · rw [if_neg hcond] at h
        exact absurd h (by simp)
    | none => exact absurd h (by simp [scanJackpotStep])
  | Joker q w e => exact absurd h (by simp [scanJackpotStep])

theorem scanJackpot_wildcard_none :
    ∀ (cards : List CardType) (st : ScanState),
      (∃ c ∈ cards, isWildcard c = true) →
      cards.foldlM scanJackpotStep st = none := by
  intro cards
  induction cards with
  | nil =>
    intro st h
    simp at h
  | cons c0 cs ih =>
    intro st h
    rw [List.foldlM_cons]
    obtain ⟨x, hx, hxw⟩ := h
    rcases List.mem_cons.mp hx with rfl | hx2
    · cases x with
      | Number numOpt suit =>
        cases numOpt with
        | some n => simp [isWildcard] at hxw
        | none => rfl
      | Joker q w e => rfl
    · cases hstep : scanJackpotStep st c0 with
      | none => rfl
      | some s1 => exact ih s1 ⟨x, hx2, hxw⟩

theorem scanJackpot_cons_some {cards : List CardType} {c0 : CardType}
    {st stf : ScanState}
    (h : (c0 :: cards).foldlM scanJackpotStep st = some stf) :
    ∃ s1, scanJackpotStep st c0 = some s1 ∧
      cards.foldlM scanJackpotStep s1 = some stf := by
  rw [List.foldlM_cons] at h
  cases hstep : scanJackpotStep st c0 with
  | none =>
    rw [hstep] at h
    exact Option.noConfusion h
  | some s1 =>
    rw [hstep] at h
    exact ⟨s1, rfl, h⟩

/-- C7: `check_jackpot` never matches a 4-subset containing any wildcard;
and whenever it does produce a combo from four cards that form a
sub-multiset of the standard deck, those cards are 4 numbered cards of one
common rank whose suit elements are exactly the 4 distinct elements (a
permutation of `[Air, Earth, Fire, Ice]`). -/
theorem c7_jackpot_exclusivity (s : PlayerState) (i j k l : Nat)
    (a b c d : CardType)
    (ha : s.hand[i]? = some a) (hb : s.hand[j]? = some b)
    (hc : s.hand[k]? = some c) (hd : s.hand[l]? = some d) :
    ((isWildcard a = true ∨ isWildcard b = true ∨ isWildcard c = true ∨
        isWildcard d = true) → checkJackpot s i j k l = none) ∧
    (∀ ht, checkJackpot s i j k l = some ht →
      ({a, b, c, d} : Multiset CardType) ≤ (↑Deck.new.cards : Multiset CardType) →
      ∃ v, rankOf a = some v ∧ rankOf b = some v ∧ rankOf c = some v ∧
        rankOf d = some v ∧
        ht = HandType.Jackpot v
          [cardElement a, cardElement b, cardElement c, cardElement d]
          [i, j, k, l] ∧
        List.Perm
          [cardElement a, cardElement b, cardElement c, cardElement d]
          allElements) := by
  constructor
  · intro hw
    have hwild : ∃ x ∈ [a, b, c, d], isWildcard x = true := by
      rcases hw with h | h | h | h
      exacts [⟨a, by simp, h⟩, ⟨b, by simp, h⟩, ⟨c, by simp, h⟩, ⟨d, by simp, h⟩]
    rw [checkJackpot, ha, hb, hc, hd]
    dsimp only
    rw [scanJackpot_wildcard_none [a, b, c, d] ⟨none, 0, []⟩ hwild]
  · intro ht hjp hsub
    have hsub2 : a ::ₘ b ::ₘ c ::ₘ d ::ₘ 0 ≤
        (↑Deck.new.cards : Multiset CardType) := by
      simpa [Multiset.insert_eq_cons] using hsub
    have hma : a ∈ Deck.new.cards :=
      Multiset.mem_coe.mp (Multiset.mem_of_le hsub2 (by simp))
    have hmb : b ∈ Deck.new.cards :=
      Multiset.mem_coe.mp (Multiset.mem_of_le hsub2 (by simp))
    have hmc : c ∈ Deck.new.cards :=
      Multiset.mem_coe.mp (Multiset.mem_of_le hsub2 (by simp))
    have hmd : d ∈ Deck.new.cards :=
      Multiset.mem_coe.mp (Multiset.mem_of_le hsub2 (by simp))
    rw [checkJackpot, ha, hb, hc, hd] at hjp
    dsimp only at hjp
    cases hfold : [a, b, c, d].foldlM scanJackpotStep ⟨none, 0, []⟩ with
    | none =>
      rw [hfold] at hjp
      exact absurd hjp (by simp)
    | some st4 =>
      rw [hfold] at hjp
      dsimp only at hjp
      obtain ⟨s1, hst1, hrest1⟩ := scanJackpot_cons_some hfold
      obtain ⟨n1, su1, rfl, hv1, hs1⟩ := scanJackpotStep_some hst1
      have hne1 : su1.element ≠ ElementType.None :=
        allElements_no_none _ (deck_numbered_element_mem _ hma rfl)
      rw [if_pos hne1, List.nil_append] at hs1
      subst hs1
      obtain ⟨s2, hst2, hrest2⟩ := scanJackpot_cons_some hrest1
      obtain ⟨n2, su2, rfl, hv2, hs2⟩ := scanJackpotStep_some hst2
      have hn2 : n2 = n1 := by
        rcases hv2 with h | h
        · exact absurd h (by simp)
        · simpa using h.symm
      subst hn2
      have hne2 : su2.element ≠ ElementType.None :=
        allElements_no_none _ (deck_numbered_element_mem _ hmb rfl)
      rw [if_pos hne2] at hs2
      subst hs2
      obtain ⟨s3, hst3, hrest3⟩ := scanJackpot_cons_some hrest2
      obtain ⟨n3, su3, rfl, hv3, hs3⟩ := scanJackpotStep_some hst3
      have hn3 : n3 = n2 := by
        rcases hv3 with h | h
        · exact absurd h (by simp)
        · simpa using h.symm
      subst hn3
      have hne3 : su3.element ≠ ElementType.None :=
        allElements_no_none _ (deck_numbered_element_mem _ hmc rfl)
      rw [if_pos hne3] at hs3
      subst hs3
      obtain ⟨s4, hst4, hrest4⟩ := scanJackpot_cons_some hrest3
      obtain ⟨n4, su4, rfl, hv4, hs4⟩ := scanJackpotStep_some hst4
      have hn4 : n4 = n3 := by
        rcases hv4 with h | h
        · exact absurd h (by simp)
        · simpa using h.symm
      subst hn4
      have hne4 : su4.element ≠ ElementType.None :=
        allElements_no_none _ (deck_numbered_element_mem _ hmd rfl)
      rw [if_pos hne4] at hs4
      subst hs4
      have hst4eq : st4 =
          (⟨some n4, 0,
            [su1.element] ++ [su2.element] ++ [su3.element] ++ [su4.element]⟩ :
            ScanState) := by
        simpa using hrest4.symm
      subst hst4eq
      have hlen : (([su1.element] ++ [su2.element] ++ [su3.element] ++
          [su4.element]).length) = 4 := by simp
      rw [if_pos hlen] at hjp
      have hteq := (Option.some.injEq _ _ |>.mp hjp).symm
      have hab : CardType.Number (some n4) su1 ≠ CardType.Number (some n4) su2 :=
        submset_pair_ne _ _ _ hsub2 rfl
      have hsub_ac : CardType.Number (some n4) su1 ::ₘ
          CardType.Number (some n4) su3 ::ₘ CardType.Number (some n4) su2 ::ₘ
          CardType.Number (some n4) su4 ::ₘ 0 ≤
          (↑Deck.new.cards : Multiset CardType) := by
        rw [Multiset.cons_swap (CardType.Number (some n4) su3)
          (CardType.Number (some n4) su2)]
        exact hsub2
      have hac : CardType.Number (some n4) su1 ≠ CardType.Number (some n4) su3 :=
        submset_pair_ne _ _ _ hsub_ac rfl
      have hsub_ad : CardType.Number (some n4) su1 ::ₘ
          CardType.Number (some n4) su4 ::ₘ CardType.Number (some n4) su2 ::ₘ
          CardType.Number (some n4) su3 ::ₘ 0 ≤
          (↑Deck.new.cards : Multiset CardType) := by
        rw [Multiset.cons_swap (CardType.Number (some n4) su4)
          (CardType.Number (some n4) su2)]
        rw [Multiset.cons_swap (CardType.Number (some n4) su4)
          (CardType.Number (some n4) su3)]
        exact hsub2
      have had : CardType.Number (some n4) su1 ≠ CardType.Number (some n4) su4 :=
        submset_pair_ne _ _ _ hsub_ad rfl
      have hsub_b : CardType.Number (some n4) su2 ::ₘ
          CardType.Number (some n4) su3 ::ₘ CardType.Number (some n4) su4 ::ₘ 0 ≤
          (↑Deck.new.cards : Multiset CardType) :=
        le_trans (Multiset.le_cons_self _ _) hsub2
      have hbc : CardType.Number (some n4) su2 ≠ CardType.Number (some n4) su3 :=
        submset_pair_ne _ _ _ hsub_b rfl
      have hsub_bd : CardType.Number (some n4) su2 ::ₘ
          CardType.Number (some n4) su4 ::ₘ CardType.Number (some n4) su3 ::ₘ 0 ≤
          (↑Deck.new.cards : Multiset CardType) := by
        rw [Multiset.cons_swap (CardType.Number (some n4) su4)
          (CardType.Number (some n4) su3)]
        exact hsub_b
      have hbd : CardType.Number (some n4) su2 ≠ CardType.Number (some n4) su4 :=
        submset_pair_ne _ _ _ hsub_bd rfl
      have hsub_c : CardType.Number (some n4) su3 ::ₘ
          CardType.Number (some n4) su4 ::ₘ 0 ≤
          (↑Deck.new.cards : Multiset CardType) :=
        le_trans (Multiset.le_cons_self _ _) hsub_b
      have hcd : CardType.Number (some n4) su3 ≠ CardType.Number (some n4) su4 :=
        submset_pair_ne _ _ _ hsub_c rfl
      have hel : ∀ su su2m : Suit,
          CardType.Number (some n4) su ∈ Deck.new.cards →
          CardType.Number (some n4) su2m ∈ Deck.new.cards →
          CardType.Number (some n4) su ≠ CardType.Number (some n4) su2m →
          su.element ≠ su2m.element := by
        intro su su2m hm1 hm2 hne heleq
        exact hne (deck_numbered_unique _ hm1 _ hm2 rfl rfl heleq)
      have e12 := hel su1 su2 hma hmb hab
      have e13 := hel su1 su3 hma hmc hac
      have e14 := hel su1 su4 hma hmd had
      have e23 := hel su2 su3 hmb hmc hbc
      have e24 := hel su2 su4 hmb hmd hbd
      have e34 := hel su3 su4 hmc hmd hcd
      have hnodup : ([su1.element, su2.element, su3.element,
          su4.element]).Nodup := by
        simp [List.nodup_cons]
        exact ⟨⟨e12, e13, e14⟩, ⟨e23, e24⟩, e34⟩
      have hsubset : [su1.element, su2.element, su3.element, su4.element] ⊆
          allElements := by
        intro x hx
        rcases List.mem_cons.mp hx with rfl | hx
        · exact deck_numbered_element_mem _ hma rfl
        rcases List.mem_cons.mp hx with rfl | hx
        · exact deck_numbered_element_mem _ hmb rfl
        rcases List.mem_cons.mp hx with rfl | hx
        · exact deck_numbered_element_mem _ hmc rfl
        rcases List.mem_cons.mp hx with rfl | hx
        · exact deck_numbered_element_mem _ hmd rfl
        exact absurd hx (by simp)
      have hperm : List.Perm [su1.element, su2.element, su3.element,
          su4.element] allElements :=
        List.Subperm.perm_of_length_le
          (List.subperm_of_subset hnodup hsubset) (by simp [allElements])
      refine ⟨n4, rfl, rfl, rfl, rfl, ?_, ?_⟩
      · rw [hteq]
        simp [cardElement]
      · simpa [cardElement] using hperm

/-- Witness for C7 on the hand `[3 Air, 3 Fire, 3 Ice, 3 Earth, joker]`:
the 4-subset including the joker yields no jackpot, while the four numbered
cards yield the jackpot of rank 3 over all four elements. -/
theorem c7_jackpot_exclusivity_witness :
    checkJackpot
      ⟨⟨[]⟩,
       [CardType.Number (some 3) airSuit, CardType.Number (some 3) fireSuit,
        CardType.Number (some 3) iceSuit, CardType.Number (some 3) earthSuit,
        jokerCard],
       []⟩ 0 1 2 4 = none ∧
    (∃ v, rankOf (CardType.Number (some 3) airSuit) = some v ∧
      rankOf (CardType.Number (some 3) fireSuit) = some v ∧
      rankOf (CardType.Number (some 3) iceSuit) = some v ∧
      rankOf (CardType.Number (some 3) earthSuit) = some v ∧
      HandType.Jackpot 3
        [ElementType.Air, ElementType.Fire, ElementType.Ice, ElementType.Earth]
        [0, 1, 2, 3] =
        HandType.Jackpot v
          [cardElement (CardType.Number (some 3) airSuit),
           cardElement (CardType.Number (some 3) fireSuit),
           cardElement (CardType.Number (some 3) iceSuit),
           cardElement (CardType.Number (some 3) earthSuit)]
          [0, 1, 2, 3] ∧
      List.Perm
        [cardElement (CardType.Number (some 3) airSuit),
         cardElement (CardType.Number (some 3) fireSuit),
         cardElement (CardType.Number (some 3) iceSuit),
         cardElement (CardType.Number (some 3) earthSuit)]
        allElements) :=
  ⟨(c7_jackpot_exclusivity
      ⟨⟨[]⟩,
       [CardType.Number (some 3) airSuit, CardType.Number (some 3) fireSuit,
        CardType.Number (some 3) iceSuit, CardType.Number (some 3) earthSuit,
        jokerCard],
       []⟩ 0 1 2 4
      (CardType.Number (some 3) airSuit) (CardType.Number (some 3) fireSuit)
      (CardType.Number (some 3) iceSuit) jokerCard
      rfl rfl rfl rfl).1 (Or.inr (Or.inr (Or.inr rfl))),
   (c7_jackpot_exclusivity
      ⟨⟨[]⟩,
       [CardType.Number (some 3) airSuit, CardType.Number (some 3) fireSuit,
        CardType.Number (some 3) iceSuit, CardType.Number (some 3) earthSuit,
        jokerCard],
       []⟩ 0 1 2 3
      (CardType.Number (some 3) airSuit) (CardType.Number (some 3) fireSuit)
      (CardType.Number (some 3) iceSuit) (CardType.Number (some 3) earthSuit)
      rfl rfl rfl rfl).2
     (HandType.Jackpot 3
       [ElementType.Air, ElementType.Fire, ElementType.Ice, ElementType.Earth]
       [0, 1, 2, 3])
     (by decide) (by decide)⟩
